import Mathlib

/-!
Verification of the interactive bash session core of the repository
(`openhands/runtime/utils/bash.py`), shallowly embedded in Lean.

Python strings are modelled as `List Char`; the tmux pane, the process table
and the `bashlex` parser are external to the session code and appear as
explicit inputs (oracles) of the embedded functions.  Mutation of `self`
becomes explicit state passing over `SessionState`; keystrokes and pane
clears become an explicit effect list.
-/

/-- Python strings, modelled as lists of characters. -/
abbrev Str := List Char

/-- Conversion helper from Lean string literals to the `Str` model. -/
def strL (s : String) : Str := s.toList

/-- Python slice `s[a:b]` (indices clamped as Python does). -/
def pySlice (s : Str) (a b : Nat) : Str := (s.drop a).take (b - a)

/-- Python `s.removeprefix(p)`. -/
def dropPre (s p : Str) : Str := if p.isPrefixOf s then s.drop p.length else s

/-- Python `s.lstrip()` (whitespace). -/
def lstrip (s : Str) : Str := s.dropWhile (·.isWhitespace)

/-- Python `s.rstrip()` (whitespace). -/
def rstrip (s : Str) : Str := (s.reverse.dropWhile (·.isWhitespace)).reverse

/-- Python `s.strip()` (whitespace). -/
def pyStrip (s : Str) : Str := rstrip (lstrip s)

/-- Python `s.endswith(t)`. -/
def endswithL (s t : Str) : Bool := t.isSuffixOf s

/-- Python `s.startswith(t)`. -/
def startswithL (s t : Str) : Bool := t.isPrefixOf s

/-- Auxiliary scanner for `splitlines`. -/
def splitlinesAux : Str → Str → List Str
  | [], acc => if acc = [] then [] else [acc.reverse]
  | '\r' :: '\n' :: rest, acc => acc.reverse :: splitlinesAux rest []
  | '\n' :: rest, acc => acc.reverse :: splitlinesAux rest []
  | '\r' :: rest, acc => acc.reverse :: splitlinesAux rest []
  | c :: rest, acc => splitlinesAux rest (c :: acc)

/-- Python `s.splitlines()` restricted to the line breaks that occur in pane
captures (`\n`, `\r\n`, `\r`); only its length is consumed by the code. -/
def splitlines (s : Str) : List Str := splitlinesAux s []

/-- Modelled from the spec: the constant `CMD_OUTPUT_PS1_END` imported from
`openhands/events/observation/commands.py` (that file is not under src/).
Section 4.3 of the spec frames the PS1 block with a newline on each side of
the literal marker `###PS1END###`. -/
def CMD_OUTPUT_PS1_END : Str := strL "\n###PS1END###\n"

/-- Modelled from the spec: `CmdOutputMetadata` (commands.py, not under src/).
Per section 4.3, `exit_code` defaults to -1 and every other field defaults to
empty.  `pfx` and `sfx` embed `metadata.prefix` and `metadata.suffix`. -/
structure CmdMeta where
  pid : Str
  exit_code : Int
  username : Str
  hostname : Str
  working_dir : Str
  py_interpreter_path : Str
  timestamp : Str
  pfx : Str
  sfx : Str
deriving DecidableEq

/-- Default-constructed `CmdOutputMetadata()`. -/
def defaultMeta : CmdMeta :=
  { pid := [], exit_code := -1, username := [], hostname := [], working_dir := []
    py_interpreter_path := [], timestamp := [], pfx := [], sfx := [] }

/-- One PS1 regex match inside a pane capture: its span offsets plus the
metadata parsed from its JSON body (`CmdOutputMetadata.from_ps1_match`).  The
regex and the JSON parser live in commands.py, which is not under src/, so
matches are taken as inputs of the embedded session code. -/
structure PS1Match where
  mstart : Nat
  mstop : Nat
  meta : CmdMeta
deriving DecidableEq

/-- Embeds the enum `BashCommandStatus` (bash.py lines 158-162). -/
inductive BashCommandStatus where
  | cont
  | completed
  | noChangeTimeout
  | hardTimeout
deriving DecidableEq

/-- The mutable fields of `BashSession` the claims are about:
`self.prev_status`, `self.prev_output` and `self._cwd`. -/
structure SessionState where
  prevStatus : Option BashCommandStatus
  prevOutput : Str
  cwd : Str
deriving DecidableEq

/-- Effects the session sends to the tmux pane. -/
inductive PaneEffect where
  | sendKeys (keys : Str) (enter : Bool)
  | clearHistory
deriving DecidableEq

/-- Embeds `BashSession._clear_screen` (bash.py 333-337) as its effect trace:
Ctrl-L without Enter, then `clear-history`. -/
def clear_screen_fx : List PaneEffect := [.sendKeys (strL "C-l") false, .clearHistory]

/-- Embeds the observation types returned by the session: `CmdOutputObservation`
(content, command, metadata) and `ErrorObservation`. -/
inductive Obs where
  | cmdOut (content : Str) (command : Str) (meta : CmdMeta)
  | errorObs (content : Str)
deriving DecidableEq

/-- Metadata prefix of an observation (empty for error observations). -/
def obsPfx : Obs → Str
  | .cmdOut _ _ m => m.pfx
  | .errorObs _ => []

/-- Content of an observation. -/
def obsContent : Obs → Str
  | .cmdOut c _ _ => c
  | .errorObs c => c

/-- The accumulation loop of `_combine_outputs_between_matches` for two or more
matches (bash.py 678-684): for consecutive matches the segment
`pane_content[ps1_matches[i].end() + 1 : ps1_matches[i+1].start()]` followed
by a newline. -/
def combinePairs (paneContent : Str) : List PS1Match → Str
  | m1 :: m2 :: rest =>
      pySlice paneContent (m1.mstop + 1) m2.mstart ++ strL "\n"
        ++ combinePairs paneContent (m2 :: rest)
  | _ => []

/-- Embeds `BashSession._combine_outputs_between_matches` (bash.py 653-686). -/
def combine_outputs_between_matches (paneContent : Str) (ps1Matches : List PS1Match)
    (getContentBeforeLastMatch : Bool) : Str :=
  match ps1Matches with
  | [m] =>
      if getContentBeforeLastMatch then paneContent.take m.mstart
      else paneContent.drop (m.mstop + 1)
  | [] => paneContent
  | ms => combinePairs paneContent ms

/-- Claim side of C1, written from the framing rule of spec section 4.3: k = 0
gives the whole capture; k = 1 gives everything before the single match, or
everything after it (the PS1 block is newline-terminated, so the text after
the match starts past the newline that closes it) according to the flag;
k >= 2 concatenates the inter-match spans, each terminated by a newline. -/
def framingRule (p : Str) (ms : List PS1Match) (beforeLast : Bool) : Str :=
  match ms, beforeLast with
  | [], _ => p
  | [m], true => p.take m.mstart
  | [m], false => p.drop (m.mstop + 1)
  | ms, _ =>
      ((ms.zip ms.tail).map
        (fun pr => pySlice p (pr.1.mstop + 1) pr.2.mstart ++ strL "\n")).flatten

/-- The loop agrees with the declarative adjacent-pairs description. -/
theorem combinePairs_eq_zip (p : Str) : ∀ ms : List PS1Match,
    combinePairs p ms =
      ((ms.zip ms.tail).map
        (fun pr => pySlice p (pr.1.mstop + 1) pr.2.mstart ++ strL "\n")).flatten
  | [] => rfl
  | [_] => rfl
  | m1 :: m2 :: rest => by
      rw [combinePairs, combinePairs_eq_zip p (m2 :: rest)]
      simp [List.zip_cons_cons]

/-- C1: for every pane capture and list of k PS1 matches,
`_combine_outputs_between_matches` returns exactly the whole capture when
k = 0; everything after the single match when k = 1 and the flag is false and
everything before it when the flag is true; and for k >= 2 the concatenation
of the spans between consecutive matches, each terminated by a newline. -/
theorem c1_combine_outputs_framing (p : Str) (ms : List PS1Match) (b : Bool) :
    combine_outputs_between_matches p ms b = framingRule p ms b := by
  match ms, b with
  | [], _ => rfl
  | [m], true => rfl
  | [m], false => rfl
  | m1 :: m2 :: rest, b =>
      show combinePairs p (m1 :: m2 :: rest) = _
      rw [combinePairs_eq_zip]
      cases b <;> rfl

/-- Embeds `_remove_command_prefix` (bash.py 165-166):
`command_output.lstrip().removeprefix(command.lstrip()).lstrip()`. -/
def remove_command_pre (commandOutput command : Str) : Str :=
  lstrip (dropPre (lstrip commandOutput) (lstrip command))

/-- Embeds `BashSession._is_special_key` (bash.py 327-331). -/
def is_special_key (command : Str) : Bool :=
  let c := pyStrip command
  startswithL c (strL "C-") && (c.length == 3)

/-- Result of `_get_command_output`: the returned string, the new value of
`self.prev_output`, and the final value of `metadata.prefix`. -/
structure GetOutputRes where
  output : Str
  newPrevOutput : Str
  pfx : Str
deriving DecidableEq

/-- Embeds `BashSession._get_command_output` (bash.py 339-362) as a pure
function of the previous `self.prev_output` and of the incoming
`metadata.prefix` (`metaPfx`) and `continue_prefix` (`contPfx`). -/
def get_command_output (prevOutput command rawCommandOutput metaPfx contPfx : Str) :
    GetOutputRes :=
  let pr :=
    if prevOutput = [] then (rawCommandOutput, metaPfx)
    else (dropPre rawCommandOutput prevOutput, contPfx)
  { output := rstrip (remove_command_pre pr.1 command)
    newPrevOutput := rawCommandOutput
    pfx := pr.2 }

/-- The truncation banner set by `_handle_completed_command` when only one PS1
match is present (bash.py 390-393). -/
def truncBanner (numLines : Nat) : Str :=
  strL "[Previous command outputs are truncated. Showing the last "
    ++ strL (toString numLines) ++ strL " lines of the output below.]\n"

/-- The continuation banner passed as `continue_prefix` by the timeout and
interrupted handlers. -/
def continueBanner : Str := strL "[Below is the output of the previous command.]\n"

/-- The suffix set by `_handle_completed_command` (bash.py 395-399). -/
def completedSfx (command : Str) (exitCode : Int) : Str :=
  if is_special_key command then
    strL "\n[The command completed with exit code " ++ strL (toString exitCode)
      ++ strL ". CTRL+" ++ [(command.getLastD ' ').toUpper] ++ strL " was sent.]"
  else
    strL "\n[The command completed with exit code " ++ strL (toString exitCode)
      ++ strL ".]"

/-- Embeds `BashSession._handle_completed_command` (bash.py 364-412).  Returns
`none` exactly when the `assert len(ps1_matches) >= 1` fails.  The result is
the observation, the new session state and the pane effects emitted before
returning (`_ready_for_next_command`, i.e. `_clear_screen`). -/
def handle_completed_command (st : SessionState) (command paneContent : Str)
    (ps1Matches : List PS1Match) : Option (Obs × SessionState × List PaneEffect) :=
  match ps1Matches.getLast? with
  | none => none
  | some lastM =>
      let meta0 := lastM.meta
      let getBefore := ps1Matches.length == 1
      let newCwd :=
        if meta0.working_dir ≠ st.cwd ∧ meta0.working_dir ≠ [] then meta0.working_dir
        else st.cwd
      let raw := combine_outputs_between_matches paneContent ps1Matches getBefore
      let pfx0 := if getBefore then truncBanner (splitlines raw).length else meta0.pfx
      let sfx0 := completedSfx command meta0.exit_code
      let r := get_command_output st.prevOutput command raw pfx0 []
      some (Obs.cmdOut r.output command { meta0 with pfx := r.pfx, sfx := sfx0 },
            { st with prevStatus := some .completed, prevOutput := [], cwd := newCwd },
            clear_screen_fx)

/-- Embeds `BashSession._handle_nochange_timeout_command` (bash.py 414-446).
No pane effect is emitted (the pane is not cleared). -/
def handle_nochange_timeout_command (st : SessionState) (command paneContent : Str)
    (ps1Matches : List PS1Match) (noChangeTimeoutSeconds : Nat) :
    Obs × SessionState × List PaneEffect :=
  let raw := combine_outputs_between_matches paneContent ps1Matches false
  let sfx0 :=
    strL "\n[The command has no new output after "
      ++ strL (toString noChangeTimeoutSeconds)
      ++ strL " seconds. You may wait longer to see additional output by sending empty command '', send other commands to interact with the current process, or send keys to interrupt/kill the command.]"
  let r := get_command_output st.prevOutput command raw [] continueBanner
  (Obs.cmdOut r.output command { defaultMeta with pfx := r.pfx, sfx := sfx0 },
   { st with prevStatus := some .noChangeTimeout, prevOutput := r.newPrevOutput },
   [])

/-- Embeds `BashSession._handle_hard_timeout_command` (bash.py 448-482); the
float timeout is modelled as a natural number of seconds.  No pane effect is
emitted. -/
def handle_hard_timeout_command (st : SessionState) (command paneContent : Str)
    (ps1Matches : List PS1Match) (timeout : Nat) :
    Obs × SessionState × List PaneEffect :=
  let raw := combine_outputs_between_matches paneContent ps1Matches false
  let sfx0 :=
    strL "\n[The command timed out after " ++ strL (toString timeout)
      ++ strL " seconds. You may wait longer to see additional output by sending empty command '', send other commands to interact with the current process, or send keys to interrupt/kill the command.]"
  let r := get_command_output st.prevOutput command raw [] continueBanner
  (Obs.cmdOut r.output command { defaultMeta with pfx := r.pfx, sfx := sfx0 },
   { st with prevStatus := some .hardTimeout, prevOutput := r.newPrevOutput },
   [])

/-- Embeds `BashSession._handle_interrupted_command` (bash.py 811-839).  The
PS1 matches of the capture are an input (the regex lives in commands.py, not
under src/).  Note the source does not update `prev_status` here. -/
def handle_interrupted_command (st : SessionState) (command lastPaneOutput : Str)
    (ps1Matches : List PS1Match) : Obs × SessionState :=
  let raw := combine_outputs_between_matches lastPaneOutput ps1Matches false
  let sfx0 :=
    strL "\n[Your command \"" ++ command
      ++ strL "\" is NOT executed. The previous command is still running - You CANNOT send new commands until the previous command is completed. By setting `is_input` to `true`, you can interact with the current process: You may wait longer to see additional output of the previous command by sending empty command '', send other commands to interact with the current process, or send keys (\"C-c\", \"C-z\", \"C-d\") to interrupt/kill the previous command before sending your new command.]"
  let r := get_command_output st.prevOutput command raw [] continueBanner
  (Obs.cmdOut r.output command { defaultMeta with pfx := r.pfx, sfx := sfx0 },
   { st with prevOutput := r.newPrevOutput })

/-- Counterexample to C2 as stated: a completion that follows a timeout, with
`prev_output` non-empty and exactly one PS1 match.  The truncation banner set
at bash.py 393 is overwritten by `_get_command_output` (line 357) with the
default empty `continue_prefix`, so the observation's prefix is empty, not
the banner. -/
theorem c2_truncation_banner_cex :
    handle_completed_command ⟨some .noChangeTimeout, strL "tail", strL "/w"⟩ []
        (strL "abcdef") [⟨2, 3, defaultMeta⟩]
      = some (Obs.cmdOut (strL "ab") []
                { defaultMeta with pfx := [], sfx := completedSfx [] (-1) },
              ⟨some .completed, [], strL "/w"⟩, clear_screen_fx) ∧
    ([] : Str) ≠ truncBanner 1 := by
  decide

/-- C2 amended: on a single-match completion the content is computed from the
pane text before that match, and the prefix is the truncation banner with N
the line count of that region exactly when `prev_output` is empty; when
`prev_output` is non-empty, `_get_command_output` overwrites the prefix with
the empty `continue_prefix`. -/
theorem c2_single_match_completion (st : SessionState) (cmd p : Str) (m : PS1Match) :
    handle_completed_command st cmd p [m] =
      some (Obs.cmdOut
              (rstrip (remove_command_pre
                (if st.prevOutput = [] then p.take m.mstart
                 else dropPre (p.take m.mstart) st.prevOutput) cmd))
              cmd
              { m.meta with
                  pfx := if st.prevOutput = []
                         then truncBanner (splitlines (p.take m.mstart)).length
                         else []
                  sfx := completedSfx cmd m.meta.exit_code },
            { st with prevStatus := some .completed, prevOutput := []
                      cwd := if m.meta.working_dir ≠ st.cwd ∧ m.meta.working_dir ≠ []
                             then m.meta.working_dir else st.cwd },
            clear_screen_fx) := by
  by_cases hp : st.prevOutput = [] <;>
    simp [handle_completed_command, get_command_output,
      combine_outputs_between_matches, hp]

/-- C3: whenever `_handle_completed_command` returns an observation (the only
path that produces status COMPLETED), the new state has
`prev_status = COMPLETED` and `prev_output = ""`, and the pane screen and
history were cleared before returning. -/
theorem c3_completed_resets_state (st : SessionState) (c p : Str) (ms : List PS1Match)
    (o : Obs) (st' : SessionState) (fx : List PaneEffect)
    (h : handle_completed_command st c p ms = some (o, st', fx)) :
    st'.prevStatus = some .completed ∧ st'.prevOutput = [] ∧ fx = clear_screen_fx := by
  rw [handle_completed_command] at h
  cases hg : ms.getLast? with
  | none => rw [hg] at h; simp at h
  | some lastM =>
      rw [hg] at h
      simp only [Option.some.injEq, Prod.mk.injEq] at h
      obtain ⟨-, h2, h3⟩ := h
      rw [← h2, ← h3]
      exact ⟨rfl, rfl, rfl⟩

/-- Witness for C3 at a concrete completed command. -/
theorem c3_completed_resets_state_witness :
    (⟨some .completed, [], strL "/w"⟩ : SessionState).prevStatus = some .completed ∧
    (⟨some .completed, [], strL "/w"⟩ : SessionState).prevOutput = [] ∧
    clear_screen_fx = clear_screen_fx :=
  c3_completed_resets_state ⟨none, [], strL "/w"⟩ [] (strL "ab") [⟨0, 0, defaultMeta⟩]
    (Obs.cmdOut [] [] { defaultMeta with pfx := truncBanner 0, sfx := completedSfx [] (-1) })
    ⟨some .completed, [], strL "/w"⟩ clear_screen_fx (by decide)

/-- Counterexample to C10 as stated: after a no-change-timeout observation,
`prev_output` equals the combined inter-match output (here the text after the
single match), not the raw pane capture of that poll. -/
theorem c10_prev_output_cex :
    (handle_nochange_timeout_command ⟨none, [], strL "/w"⟩ [] (strL "abcdef")
        [⟨1, 2, defaultMeta⟩] 30).2.1.prevOutput = strL "def" ∧
    strL "def" ≠ strL "abcdef" := by
  decide

/-- C10 amended: every observation-building path through `_get_command_output`
overwrites `prev_output` with the combined output extracted from that poll's
capture (the completed handler afterwards resets it to empty), and a next
observation with non-empty `prev_output` removes it as a prefix and sets the
metadata prefix to the `continue_prefix` of its path — the continuation
banner for the no-change, hard-timeout and interrupted paths. -/
theorem c10_prev_output_tracking :
    (∀ st c p ms n,
        (handle_nochange_timeout_command st c p ms n).2.1.prevOutput =
          combine_outputs_between_matches p ms false) ∧
    (∀ st c p ms t,
        (handle_hard_timeout_command st c p ms t).2.1.prevOutput =
          combine_outputs_between_matches p ms false) ∧
    (∀ st c p ms,
        (handle_interrupted_command st c p ms).2.prevOutput =
          combine_outputs_between_matches p ms false) ∧
    (∀ st c p ms r, handle_completed_command st c p ms = some r →
        r.2.1.prevOutput = []) ∧
    (∀ prevOut c raw mp cp, prevOut ≠ [] →
        get_command_output prevOut c raw mp cp =
          { output := rstrip (remove_command_pre (dropPre raw prevOut) c)
            newPrevOutput := raw
            pfx := cp }) ∧
    (∀ st c p ms n, st.prevOutput ≠ [] →
        obsPfx (handle_nochange_timeout_command st c p ms n).1 = continueBanner) ∧
    (∀ st c p ms t, st.prevOutput ≠ [] →
        obsPfx (handle_hard_timeout_command st c p ms t).1 = continueBanner) ∧
    (∀ st c p ms, st.prevOutput ≠ [] →
        obsPfx (handle_interrupted_command st c p ms).1 = continueBanner) := by
  refine ⟨?_, ?_, ?_, ?_, ?_, ?_, ?_, ?_⟩
  · intro st c p ms n
    simp [handle_nochange_timeout_command, get_command_output]
  · intro st c p ms t
    simp [handle_hard_timeout_command, get_command_output]
  · intro st c p ms
    simp [handle_interrupted_command, get_command_output]
  · intro st c p ms r h
    rw [handle_completed_command] at h
    cases hg : ms.getLast? with
    | none => rw [hg] at h; simp at h
    | some lastM =>
        rw [hg] at h
        simp only [Option.some.injEq] at h
        rw [← h]
  · intro prevOut c raw mp cp hne
    simp [get_command_output, hne]
  · intro st c p ms n hne
    simp [handle_nochange_timeout_command, get_command_output, hne, obsPfx]
  · intro st c p ms t hne
    simp [handle_hard_timeout_command, get_command_output, hne, obsPfx]
  · intro st c p ms hne
    simp [handle_interrupted_command, get_command_output, hne, obsPfx]

/-- Witness for C10 at a concrete non-empty previous output. -/
theorem c10_prev_output_tracking_witness :
    get_command_output (strL "a") [] (strL "ab") [] [] =
      { output := rstrip (remove_command_pre (dropPre (strL "ab") (strL "a")) [])
        newPrevOutput := strL "ab"
        pfx := [] } :=
  c10_prev_output_tracking.2.2.2.2.1 (strL "a") [] (strL "ab") [] [] (by decide)

/-- The psutil exceptions caught by `kill_process` (bash.py 296). -/
inductive KillErr where
  | noSuchProcess
  | accessDenied
deriving DecidableEq

/-- One entry of the process table: pid, parent pid, argv, status flag, and
whether the psutil reads on it succeed (`accessible = false` models a process
that disappears or denies access mid-walk and is skipped). -/
structure ProcEntry where
  pid : Nat
  ppid : Nat
  cmdline : List Str
  statusFlag : Char
  accessible : Bool
deriving DecidableEq

/-- The external inputs of `get_running_processes`: the pane capture and its
PS1 matches, the tmux `#\x7bpane_pid\x7d` lookup (`none` models the
IndexError/ValueError fallback), whether `psutil.Process(shell_pid)` and its
attribute reads succeed, and the recursive children in iteration order. -/
structure ProcEnv where
  paneContent : Str
  paneMatches : List PS1Match
  shellPidRes : Option Nat
  shellProcOk : Bool
  children : List ProcEntry
deriving DecidableEq

/-- The dictionary returned by `get_running_processes`, restricted to the pid
lists (the formatted process strings are only parsed back to these pids). -/
structure ProcessInfo where
  isCommandRunning : Bool
  currentCommandPid : Option Nat
  processPids : List Nat
  commandPids : List Nat
deriving DecidableEq

/-- Embeds `BashSession.get_running_processes` (bash.py 489-651): the early
clean-state return, the two tmux/psutil failure returns, the two
child-classification passes, and the final adjustment of
`is_command_running` by process presence. -/
def get_running_processes (env : ProcEnv) : ProcessInfo :=
  let isRunning := !(endswithL (rstrip env.paneContent) (rstrip CMD_OUTPUT_PS1_END))
  if env.paneMatches.length > 0 ∧ isRunning = false then
    ⟨false, none, [], []⟩
  else
    match env.shellPidRes with
    | none => ⟨isRunning, none, [], []⟩
    | some shellPid =>
        if env.shellProcOk = false then ⟨isRunning, none, [], []⟩
        else
          let goodKids := env.children.filter (fun c => c.accessible && !c.cmdline.isEmpty)
          let fp := goodKids.foldl
            (fun (acc : Option Nat × List Nat) c =>
              if c.ppid = shellPid then
                ((if acc.1.isNone then some c.pid else acc.1), acc.2 ++ [c.pid])
              else acc)
            (none, [])
          let cmdPids := goodKids.foldl
            (fun (acc : List Nat) c =>
              if c.pid ∈ acc then acc
              else if c.ppid ∈ acc then acc ++ [c.pid] else acc)
            fp.2
          let processPids := shellPid :: goodKids.map (·.pid)
          let isRunning2 :=
            if isRunning = false ∧ cmdPids ≠ [] then true
            else if isRunning = true ∧ cmdPids = [] then false
            else isRunning
          ⟨isRunning2, fp.1, processPids, cmdPids⟩

/-- Embeds `BashSession.kill_process` (bash.py 283-297): `killRes pid = none`
models a successful SIGKILL; a `NoSuchProcess`/`AccessDenied` value is caught
and yields `false` instead of propagating. -/
def kill_process (killRes : Nat → Option KillErr) (pid : Nat) : Bool :=
  match killRes pid with
  | none => true
  | some _ => false

/-- Embeds `BashSession.kill_all_processes` (bash.py 299-313): iterate
`process_info['process_pids']`, skip the tmux pane pid, and accumulate
whether any kill succeeded. -/
def kill_all_processes (env : ProcEnv) (killRes : Nat → Option KillErr)
    (panePid : Nat) : Bool :=
  (get_running_processes env).processPids.foldl
    (fun success pid =>
      if pid ≠ panePid then (if kill_process killRes pid then true else success)
      else success)
    false

/-- The kill-all fold computes a disjunction over the pid list. -/
theorem kill_all_fold (killRes : Nat → Option KillErr) (pp : Nat) :
    ∀ (l : List Nat) (b : Bool),
      l.foldl (fun success pid =>
          if pid ≠ pp then (if kill_process killRes pid then true else success)
          else success) b
        = (b || l.any (fun pid => pid ≠ pp && kill_process killRes pid))
  | [], b => by simp
  | x :: l, b => by
      rw [List.foldl_cons, kill_all_fold killRes pp l]
      by_cases hx : x = pp
      · simp [hx]
      · cases hkill : kill_process killRes x <;>
          simp [hx, hkill, Bool.or_assoc]

/-- C6: in the normal discovery state, the discovered process pids are the
shell pid followed by the pids of its recursive descendants that are
accessible and have a command line (the command processes, in the sense of
the spec's glossary); `kill_all_processes` signals every one of them except
the pane pid and returns true iff at least one kill succeeded; and a missing
process or permission denial makes `kill_process` return false rather than
raise. -/
theorem c6_kill_all_processes_spec (env : ProcEnv) (killRes : Nat → Option KillErr)
    (panePid sp : Nat)
    (h1 : env.shellPidRes = some sp) (h2 : env.shellProcOk = true)
    (h3 : endswithL (rstrip env.paneContent) (rstrip CMD_OUTPUT_PS1_END) = false) :
    (get_running_processes env).processPids =
      sp :: (env.children.filter (fun c => c.accessible && !c.cmdline.isEmpty)).map (·.pid) ∧
    (kill_all_processes env killRes panePid = true ↔
      ∃ pid ∈ (get_running_processes env).processPids, pid ≠ panePid ∧ killRes pid = none) ∧
    (∀ pid, kill_process killRes pid = false ↔ killRes pid ≠ none) := by
  refine ⟨?_, ?_, ?_⟩
  · simp [get_running_processes, h1, h2, h3]
  · rw [kill_all_processes, kill_all_fold]
    simp only [Bool.false_or, List.any_eq_true, Bool.and_eq_true, decide_eq_true_eq]
    constructor
    · rintro ⟨pid, hmem, hne, hkill⟩
      refine ⟨pid, hmem, hne, ?_⟩
      cases hk : killRes pid with
      | none => rfl
      | some e => rw [kill_process, hk] at hkill; exact absurd hkill (by simp)
    · rintro ⟨pid, hmem, hne, hkill⟩
      exact ⟨pid, hmem, hne, by rw [kill_process, hkill]⟩
  · intro pid
    cases hk : killRes pid <;> simp [kill_process, hk]

/-- Witness for C6 at a concrete process table: shell pid 2 with one
accessible child 5. -/
theorem c6_kill_all_processes_spec_witness :
    (get_running_processes ⟨strL "run", [], some 2, true,
        [⟨5, 2, [strL "sleep"], 'S', true⟩]⟩).processPids =
      2 :: ((([⟨5, 2, [strL "sleep"], 'S', true⟩] : List ProcEntry).filter
          (fun c => c.accessible && !c.cmdline.isEmpty)).map (·.pid)) :=
  (c6_kill_all_processes_spec
    ⟨strL "run", [], some 2, true, [⟨5, 2, [strL "sleep"], 'S', true⟩]⟩
    (fun _ => none) 2 2 rfl rfl (by decide)).1

/-- The shell metacharacters of the escape regex `[;&|><]` (bash.py 110). -/
def metas : List Char := [';', '&', '|', '>', '<']

/-- Whether the two consecutive characters form a match of the pattern
`\\([;&|><])`. -/
def escHit (a c : Char) : Bool := a == '\\' && metas.contains c

/-- Embeds `re.sub(r'\\([;&|><])', r'\\\\\1', s)`: scan left to right; a
backslash followed by a metacharacter becomes two backslashes and the
metacharacter (non-overlapping leftmost matches). -/
def subEscape : Str → Str
  | [] => []
  | [c] => [c]
  | a :: c :: rest =>
      if escHit a c then '\\' :: '\\' :: c :: subEscape rest
      else a :: subEscape (c :: rest)

/-- Decides that a string contains no backslash-metacharacter pair, i.e. that
the escape regex has no match in it. -/
def noOccB : Str → Bool
  | [] => true
  | [_] => true
  | a :: c :: rest => !escHit a c && noOccB (c :: rest)

/-- The substitution is the identity on strings without a match. -/
theorem subEscape_eq_self : ∀ s : Str, noOccB s = true → subEscape s = s
  | [], _ => rfl
  | [_], _ => rfl
  | a :: c :: rest, h => by
      rw [noOccB, Bool.and_eq_true] at h
      have hfalse : escHit a c = false := by simpa using h.1
      simp [subEscape, hfalse, subEscape_eq_self (c :: rest) h.2]

/-- The bashlex AST shape consumed by `escape_bash_special_chars`
(bash.py 86-142): a node is a word (with its position span), a redirect that
introduces a heredoc (node span and heredoc span), a node that has a `parts`
attribute to recurse into, or any other leaf (e.g. a plain redirect), which
`visit_node` leaves untouched.  The parse is an oracle input since bashlex is
an external library. -/
inductive BNode where
  | word (a b : Nat)
  | heredocRedirect (a b hstart hstop : Nat)
  | leafOther (a b : Nat)
  | inner (a b : Nat) (parts : List BNode)

/-- The start offset `node.pos[0]` of a node. -/
def bstart : BNode → Nat
  | .word a _ => a
  | .heredocRedirect a _ _ _ => a
  | .leafOther a _ => a
  | .inner a _ _ => a

/-- The quoted-or-command-substitution test on a word's literal text
(bash.py 114-119). -/
def isQuotedOrSub (w : Str) : Bool :=
  (startswithL w (strL "\"") && endswithL w (strL "\"")) ||
  (startswithL w (strL "'") && endswithL w (strL "'")) ||
  (startswithL w (strL "$(") && endswithL w (strL ")")) ||
  (startswithL w (strL "`") && endswithL w (strL "`"))

mutual

/-- Embeds `visit_node` (bash.py 86-133): the state is the `parts` list and
the `last_pos` cursor captured by the closure. -/
def visitNode (cmd : Str) : BNode → List Str × Nat → List Str × Nat
  | .heredocRedirect a b h1 h2, (ps, lp) =>
      (ps ++ [pySlice cmd lp a, pySlice cmd a h1, pySlice cmd h1 h2], b)
  | .word a b, (ps, lp) =>
      let between := subEscape (pySlice cmd lp a)
      let wordText := pySlice cmd a b
      let w := if isQuotedOrSub wordText then wordText else subEscape wordText
      (ps ++ [between, w], b)
  | .inner _ _ parts, st => visitNodes cmd parts st
  | .leafOther _ _, st => st

/-- Folds `visit_node` over child parts (bash.py 131-133). -/
def visitNodes (cmd : Str) : List BNode → List Str × Nat → List Str × Nat
  | [], st => st
  | n :: rest, st => visitNodes cmd rest (visitNode cmd n st)

end

/-- Embeds the top-level node loop of `escape_bash_special_chars`
(bash.py 136-142): escape the text before the node, move the cursor to the
node start, then visit the node. -/
def visitTop (cmd : Str) : List BNode → List Str × Nat → List Str × Nat
  | [], st => st
  | n :: rest, (ps, lp) =>
      let between := subEscape (pySlice cmd lp (bstart n))
      visitTop cmd rest (visitNode cmd n (ps ++ [between], bstart n))

/-- Embeds `escape_bash_special_chars` (bash.py 74-155); `parsed = none` models
a `bashlex` ParsingError/NotImplementedError (return the input unchanged). -/
def escape_bash_special_chars (command : Str) (parsed : Option (List BNode)) : Str :=
  if pyStrip command = [] then []
  else
    match parsed with
    | none => command
    | some nodes =>
        let st := visitTop command nodes ([], 0)
        (st.1 ++ [command.drop st.2]).flatten

mutual

/-- Well-formedness of one node's traversal from cursor `lp`, combined with
the requirement that every region the walker passes to the regex substitution
has no backslash-metacharacter pair (the claim's unquoted occurrences).
Returns the cursor after the node. -/
def escOkNode (cmd : Str) : BNode → Nat → Option Nat
  | .word a b, lp =>
      if lp ≤ a ∧ a ≤ b ∧ noOccB (pySlice cmd lp a) = true ∧
         (isQuotedOrSub (pySlice cmd a b) = true ∨ noOccB (pySlice cmd a b) = true)
      then some b else none
  | .heredocRedirect a b h1 h2, lp =>
      if lp ≤ a ∧ a ≤ h1 ∧ h1 ≤ h2 ∧ h2 = b then some b else none
  | .leafOther _ _, lp => some lp
  | .inner _ _ parts, lp => escOkNodes cmd parts lp

/-- Chains `escOkNode` over child parts. -/
def escOkNodes (cmd : Str) : List BNode → Nat → Option Nat
  | [], lp => some lp
  | n :: rest, lp =>
      match escOkNode cmd n lp with
      | some lp' => escOkNodes cmd rest lp'
      | none => none

end

/-- Well-formedness and no-unquoted-occurrence for the top-level loop. -/
def escOkTop (cmd : Str) : List BNode → Nat → Option Nat
  | [], lp => some lp
  | n :: rest, lp =>
      if lp ≤ bstart n ∧ noOccB (pySlice cmd lp (bstart n)) = true then
        match escOkNode cmd n (bstart n) with
        | some lp' => escOkTop cmd rest lp'
        | none => none
      else none

/-- Adjacent Python slices concatenate. -/
theorem pySlice_append (cmd : Str) (x y z : Nat) (h1 : x ≤ y) (h2 : y ≤ z) :
    pySlice cmd x y ++ pySlice cmd y z = pySlice cmd x z := by
  unfold pySlice
  have hd : cmd.drop y = (cmd.drop x).drop (y - x) := by
    rw [List.drop_drop]
    congr 1
    omega
  rw [hd]
  have hz : z - x = (y - x) + (z - y) := by omega
  rw [hz, List.take_add]

mutual

/-- Soundness of the walker on one node: under `escOkNode`, the appended parts
join to exactly the slice of the input the cursor moved over. -/
theorem visitNode_sound (cmd : Str) (n : BNode) :
    ∀ (lp lp' : Nat) (ps : List Str),
      escOkNode cmd n lp = some lp' →
      lp ≤ lp' ∧ (visitNode cmd n (ps, lp)).2 = lp' ∧
        (visitNode cmd n (ps, lp)).1.flatten = ps.flatten ++ pySlice cmd lp lp' := by
  match n with
  | .word a b =>
      intro lp lp' ps h
      rw [escOkNode] at h
      split at h
      case isTrue hcond =>
        obtain ⟨hla, hab, hbet, hword⟩ := hcond
        injection h with h
        subst h
        refine ⟨le_trans hla hab, rfl, ?_⟩
        simp only [visitNode, List.flatten_append, List.flatten_cons, List.flatten_nil,
          List.append_nil, List.append_assoc]
        rw [subEscape_eq_self _ hbet]
        by_cases hq : isQuotedOrSub (pySlice cmd a b) = true
        · rw [if_pos hq, pySlice_append cmd lp a b hla hab]
        · have hno : noOccB (pySlice cmd a b) = true := hword.resolve_left hq
          rw [if_neg hq, subEscape_eq_self _ hno, pySlice_append cmd lp a b hla hab]
      case isFalse => simp at h
  | .heredocRedirect a b h1 h2 =>
      intro lp lp' ps h
      rw [escOkNode] at h
      split at h
      case isTrue hcond =>
        obtain ⟨hla, hah, hhh, hhb⟩ := hcond
        injection h with h
        subst h
        subst hhb
        refine ⟨by omega, rfl, ?_⟩
        simp only [visitNode, List.flatten_append, List.flatten_cons, List.flatten_nil,
          List.append_nil, List.append_assoc]
        rw [pySlice_append cmd a h1 h2 hah hhh,
          pySlice_append cmd lp a h2 hla (le_trans hah hhh)]
      case isFalse => simp at h
  | .leafOther a b =>
      intro lp lp' ps h
      rw [escOkNode] at h
      injection h with h
      subst h
      exact ⟨le_refl _, rfl, by simp [visitNode, pySlice]⟩
  | .inner a b parts =>
      intro lp lp' ps h
      rw [escOkNode] at h
      have hrec := visitNodes_sound cmd parts lp lp' ps h
      simpa [visitNode] using hrec

/-- Soundness of the walker on a list of child nodes. -/
theorem visitNodes_sound (cmd : Str) (ns : List BNode) :
    ∀ (lp lp' : Nat) (ps : List Str),
      escOkNodes cmd ns lp = some lp' →
      lp ≤ lp' ∧ (visitNodes cmd ns (ps, lp)).2 = lp' ∧
        (visitNodes cmd ns (ps, lp)).1.flatten = ps.flatten ++ pySlice cmd lp lp' := by
  match ns with
  | [] =>
      intro lp lp' ps h
      rw [escOkNodes] at h
      injection h with h
      subst h
      exact ⟨le_refl _, rfl, by simp [visitNodes, pySlice]⟩
  | n :: rest =>
      intro lp lp' ps h
      rw [escOkNodes] at h
      cases hm : escOkNode cmd n lp with
      | none => rw [hm] at h; simp at h
      | some mid =>
          rw [hm] at h
          obtain ⟨hle1, hsnd1, hflat1⟩ := visitNode_sound cmd n lp mid ps hm
          obtain ⟨hle2, hsnd2, hflat2⟩ :=
            visitNodes_sound cmd rest mid lp' (visitNode cmd n (ps, lp)).1 h
          rw [visitNodes]
          have hpair : visitNode cmd n (ps, lp) = ((visitNode cmd n (ps, lp)).1, mid) := by
            rw [← hsnd1]
          rw [hpair]
          refine ⟨le_trans hle1 hle2, hsnd2, ?_⟩
          rw [hflat2, hflat1, List.append_assoc,
            pySlice_append cmd lp mid lp' hle1 hle2]

end

/-- Soundness of the top-level loop of the escaper. -/
theorem visitTop_sound (cmd : Str) : ∀ (ns : List BNode) (lp lp' : Nat) (ps : List Str),
    escOkTop cmd ns lp = some lp' →
    lp ≤ lp' ∧ (visitTop cmd ns (ps, lp)).2 = lp' ∧
      (visitTop cmd ns (ps, lp)).1.flatten = ps.flatten ++ pySlice cmd lp lp'
  | [], lp, lp', ps => by
      intro h
      rw [escOkTop] at h
      injection h with h
      subst h
      exact ⟨le_refl _, rfl, by simp [visitTop, pySlice]⟩
  | n :: rest, lp, lp', ps => by
      intro h
      rw [escOkTop] at h
      split at h
      case isTrue hcond =>
        obtain ⟨hla, hbet⟩ := hcond
        cases hm : escOkNode cmd n (bstart n) with
        | none => rw [hm] at h; simp at h
        | some mid =>
            rw [hm] at h
            obtain ⟨hle1, hsnd1, hflat1⟩ :=
              visitNode_sound cmd n (bstart n) mid
                (ps ++ [subEscape (pySlice cmd lp (bstart n))]) hm
            obtain ⟨hle2, hsnd2, hflat2⟩ :=
              visitTop_sound cmd rest mid lp'
                (visitNode cmd n
                  (ps ++ [subEscape (pySlice cmd lp (bstart n))], bstart n)).1 h
            simp only [visitTop]
            have hpair :
                visitNode cmd n (ps ++ [subEscape (pySlice cmd lp (bstart n))], bstart n)
                  = ((visitNode cmd n
                      (ps ++ [subEscape (pySlice cmd lp (bstart n))], bstart n)).1, mid) := by
              rw [← hsnd1]
            rw [hpair]
            refine ⟨le_trans hla (le_trans hle1 hle2), hsnd2, ?_⟩
            rw [hflat2, hflat1, subEscape_eq_self _ hbet]
            simp only [List.flatten_append, List.flatten_cons, List.flatten_nil,
              List.append_nil, List.append_assoc]
            rw [pySlice_append cmd (bstart n) mid lp' hle1 hle2,
              pySlice_append cmd lp (bstart n) lp' hla (le_trans hle1 hle2)]
      case isFalse => simp at h

/-- Counterexample to C8 as stated: the whitespace-only input `" "` contains no
backslash-metacharacter pair at all, yet the escaper returns the empty string
(bash.py 79-80), not the input. -/
theorem c8_whitespace_cex :
    escape_bash_special_chars (strL " ") none = [] ∧
    noOccB (strL " ") = true ∧
    strL " " ≠ ([] : Str) := by
  decide

/-- C8 amended: on every input that is not whitespace-only,
`escape_bash_special_chars` is the identity whenever the parse fails, and
whenever the parsed traversal is well formed and no region it passes to the
substitution (text between nodes and unquoted word texts — the claim's
unquoted metacharacters preceded by a backslash) contains a
backslash-metacharacter pair; whitespace-only non-empty inputs are instead
mapped to the empty string. -/
theorem c8_escaper_identity (cmd : Str) (nodes : List BNode) (lp' : Nat)
    (hstrip : pyStrip cmd ≠ [])
    (hok : escOkTop cmd nodes 0 = some lp') :
    escape_bash_special_chars cmd (some nodes) = cmd ∧
    escape_bash_special_chars cmd none = cmd := by
  obtain ⟨-, hsnd, hflat⟩ := visitTop_sound cmd nodes 0 lp' [] hok
  constructor
  · rw [escape_bash_special_chars, if_neg hstrip]
    show ((visitTop cmd nodes ([], 0)).1 ++ [cmd.drop (visitTop cmd nodes ([], 0)).2]).flatten = cmd
    rw [List.flatten_append, hflat, hsnd]
    simp [pySlice]
  · rw [escape_bash_special_chars, if_neg hstrip]

/-- Witness for C8 on the concrete command `echo hi` with its bashlex tree. -/
theorem c8_escaper_identity_witness :
    escape_bash_special_chars (strL "echo hi")
        (some [.inner 0 7 [.word 0 4, .word 5 7]]) = strL "echo hi" ∧
    escape_bash_special_chars (strL "echo hi") none = strL "echo hi" :=
  c8_escaper_identity (strL "echo hi") [.inner 0 7 [.word 0 4, .word 5 7]] 7
    (by decide) (by decide)

/-- Embeds `split_bash_commands` (bash.py 23-71).  The bashlex parse result is
an oracle input: `none` models a ParsingError/NotImplementedError, `some`
carries the position spans of the top-level nodes. -/
def split_bash_commands (commands : Str) (parsed : Option (List (Nat × Nat))) :
    List Str :=
  if pyStrip commands = [] then [[]]
  else
    match parsed with
    | none => [commands]
    | some nodes =>
        let step : List Str × Nat → Nat × Nat → List Str × Nat := fun st ab =>
          let result0 := st.1
          let lastEnd := st.2
          let a := ab.1
          let b := ab.2
          let result :=
            if lastEnd < a then
              let between := pySlice commands lastEnd a
              if result0 ≠ [] then
                result0.dropLast ++ [result0.getLastD [] ++ rstrip between]
              else if pyStrip between ≠ [] then result0 ++ [rstrip between]
              else result0
            else result0
          (result ++ [rstrip (pySlice commands a b)], b)
        let fr := nodes.foldl step ([], 0)
        let remaining := rstrip (commands.drop fr.2)
        if fr.2 < commands.length then
          if fr.1 ≠ [] then fr.1.dropLast ++ [fr.1.getLastD [] ++ remaining]
          else if remaining ≠ [] then fr.1 ++ [remaining]
          else fr.1
        else fr.1

/-- The multi-command error text of `_handle_normal_command` (bash.py 791-797):
header lines plus the commands enumerated `(1) ...`, `(2) ...`. -/
def multiCmdError (cmds : List Str) : Str :=
  strL "ERROR: Cannot execute multiple commands at once.\n"
    ++ strL "Please run each command separately OR chain them into a single command via && or ;\n"
    ++ strL "Provided commands:\n"
    ++ List.intercalate (strL "\n")
        (cmds.enum.map (fun pr => strL "(" ++ strL (toString (pr.1 + 1)) ++ strL ") " ++ pr.2))

/-- Appending anything preserves a startswith test on the first part. -/
theorem startswith_append (p t : Str) : startswithL (p ++ t) p = true := by
  rw [startswithL, List.isPrefixOf_iff_prefix]
  exact List.prefix_append p t

/-- The multi-command error content always starts with the claim's header. -/
theorem multiCmdError_starts (cmds : List Str) :
    startswithL (multiCmdError cmds)
      (strL "ERROR: Cannot execute multiple commands at once.") = true := by
  have hsplit : strL "ERROR: Cannot execute multiple commands at once.\n"
      = strL "ERROR: Cannot execute multiple commands at once." ++ strL "\n" := by decide
  rw [multiCmdError, hsplit, List.append_assoc, List.append_assoc, List.append_assoc]
  exact startswith_append _ _

/-- The statuses under which an empty or input command is allowed
(bash.py 725-729 and 744-748). -/
def runningish : Option BashCommandStatus → Bool
  | some .cont => true
  | some .noChangeTimeout => true
  | some .hardTimeout => true
  | _ => false

/-- The actions dispatched by `execute` (bash.py 688-719): a
`StopProcessesAction`, a `CmdRunAction` with its command, `is_input`,
`blocking` and `timeout` fields, or any other action type (carrying its type
name for the error message). -/
inductive BAction where
  | stop
  | cmdRun (command : Str) (isInput : Bool) (blocking : Bool) (timeout : Option Nat)
  | other (tyName : Str)

/-- The external inputs consumed by one `execute` dispatch: the pane capture
and its PS1 matches, the two bashlex parse oracles, and the process/kill
environment for a Stop action. -/
structure ExecEnv where
  paneContent : Str
  paneMatches : List PS1Match
  parseSplit : Option (List (Nat × Nat))
  parseEscape : Option (List BNode)
  procEnv : ProcEnv
  killRes : Nat → Option KillErr
  panePid : Nat

/-- Outcome of the synchronous prefix of `execute`: an immediate observation,
or entry into `_poll_for_command_completion` with the given command, or a
raised RuntimeError.  `fx` are the keystrokes sent to the pane. -/
inductive ExecOutcome where
  | ret (o : Obs) (st : SessionState) (fx : List PaneEffect)
  | pollCmd (command : Str) (st : SessionState) (fx : List PaneEffect)
  | fatal (msg : Str)
deriving DecidableEq

/-- Embeds `_handle_empty_command` up to the polling loop (bash.py 721-737). -/
def handle_empty_command_pre (st : SessionState) : ExecOutcome :=
  if !runningish st.prevStatus then
    .ret (Obs.cmdOut (strL "ERROR: No previous running command to retrieve logs from.")
      [] defaultMeta) st []
  else .pollCmd [] st []

/-- Embeds `_handle_input_command` up to the polling loop (bash.py 739-766). -/
def handle_input_command_pre (st : SessionState) (command : Str) : ExecOutcome :=
  if !runningish st.prevStatus then
    .ret (Obs.cmdOut (strL "ERROR: No previous running command to interact with.")
      [] defaultMeta) st []
  else .pollCmd command st [.sendKeys command (!is_special_key command)]

/-- Embeds `_handle_normal_command` up to the polling loop (bash.py 768-809):
interrupted-command check first, then the multi-command rejection, then
escaping and keystroke injection. -/
def handle_normal_command_pre (st : SessionState) (command : Str) (env : ExecEnv) :
    ExecOutcome :=
  if (st.prevStatus = some .hardTimeout ∨ st.prevStatus = some .noChangeTimeout) ∧
      endswithL env.paneContent CMD_OUTPUT_PS1_END = false then
    let r := handle_interrupted_command st command env.paneContent env.paneMatches
    .ret r.1 r.2 []
  else
    let splited := split_bash_commands command env.parseSplit
    if splited.length > 1 then
      .ret (Obs.errorObs (multiCmdError splited)) st []
    else
      let command2 := escape_bash_special_chars command env.parseEscape
      .pollCmd command2 st [.sendKeys command2 (!is_special_key command)]

/-- Embeds the dispatch of `execute` (bash.py 688-719) up to the polling loop. -/
def execute_pre (initializedAttr : Bool) (st : SessionState) (action : BAction)
    (env : ExecEnv) : ExecOutcome :=
  if !initializedAttr then .fatal (strL "Bash session is not initialized")
  else
    match action with
    | .stop =>
        let success := kill_all_processes env.procEnv env.killRes env.panePid
        .ret (Obs.cmdOut
          (if success then strL "All running processes have been terminated"
           else strL "No processes were terminated") [] defaultMeta) st []
    | .other tyName =>
        .ret (Obs.errorObs (strL "Unsupported action type: " ++ tyName)) st []
    | .cmdRun command0 isInput _ _ =>
        let command := pyStrip command0
        if command = [] then handle_empty_command_pre st
        else if isInput then handle_input_command_pre st command
        else handle_normal_command_pre st command env

/-- Classifies an outcome as the multi-command error observation. -/
def isMultiCmdErrorObs : ExecOutcome → Bool
  | .ret (Obs.errorObs content) _ _ =>
      startswithL content (strL "ERROR: Cannot execute multiple commands at once.")
  | _ => false

/-- Counterexample to C7 as stated: a non-input, non-empty command whose split
has two elements, issued while the session is in a timeout state with a pane
that does not end in the PS1 fence.  The interrupted-command check
(bash.py 774-786) fires before the splitter, so `execute` returns a regular
interrupted observation, not the multi-command error observation. -/
theorem c7_multi_command_cex :
    (split_bash_commands (strL "echo a; echo b") (some [(0, 6), (8, 14)])).length = 2 ∧
    isMultiCmdErrorObs
      (execute_pre true ⟨some .noChangeTimeout, [], strL "/w"⟩
        (.cmdRun (strL "echo a; echo b") false false none)
        ⟨strL "x", [], some [(0, 6), (8, 14)], none, ⟨[], [], none, false, []⟩,
          fun _ => none, 0⟩) = false := by
  decide

/-- C7 amended: for every non-input, non-empty command whose split has more
than one element, provided the prior command is not still running after a
timeout (otherwise the interrupted-command path takes precedence), `execute`
returns an error observation that starts with the multi-command header and
enumerates the split commands, and sends no keystrokes. -/
theorem c7_multi_command_rejected (st : SessionState) (cmd0 : Str)
    (blocking : Bool) (tmo : Option Nat) (env : ExecEnv)
    (hcmd : pyStrip cmd0 ≠ [])
    (hnotint : ¬((st.prevStatus = some .hardTimeout ∨ st.prevStatus = some .noChangeTimeout) ∧
        endswithL env.paneContent CMD_OUTPUT_PS1_END = false))
    (hsplit : (split_bash_commands (pyStrip cmd0) env.parseSplit).length > 1) :
    execute_pre true st (.cmdRun cmd0 false blocking tmo) env =
      .ret (Obs.errorObs (multiCmdError (split_bash_commands (pyStrip cmd0) env.parseSplit)))
        st [] ∧
    startswithL (multiCmdError (split_bash_commands (pyStrip cmd0) env.parseSplit))
      (strL "ERROR: Cannot execute multiple commands at once.") = true := by
  refine ⟨?_, multiCmdError_starts _⟩
  rw [execute_pre, if_neg (by simp)]
  show (if pyStrip cmd0 = [] then handle_empty_command_pre st
        else if false = true then handle_input_command_pre st (pyStrip cmd0)
        else handle_normal_command_pre st (pyStrip cmd0) env) = _
  rw [if_neg hcmd, if_neg (by simp)]
  rw [handle_normal_command_pre, if_neg hnotint]
  show (if (split_bash_commands (pyStrip cmd0) env.parseSplit).length > 1 then _ else _) = _
  rw [if_pos hsplit]

/-- Witness for C7 on `echo a; echo b` in a completed-state session. -/
theorem c7_multi_command_rejected_witness :
    execute_pre true ⟨some .completed, [], strL "/w"⟩
      (.cmdRun (strL "echo a; echo b") false false none)
      ⟨strL "x", [], some [(0, 6), (8, 14)], none, ⟨[], [], none, false, []⟩,
        fun _ => none, 0⟩ =
      .ret (Obs.errorObs (multiCmdError (split_bash_commands
          (pyStrip (strL "echo a; echo b"))
          (ExecEnv.parseSplit ⟨strL "x", [], some [(0, 6), (8, 14)], none,
            ⟨[], [], none, false, []⟩, fun _ => none, 0⟩))))
        ⟨some .completed, [], strL "/w"⟩ [] ∧
    startswithL (multiCmdError (split_bash_commands
        (pyStrip (strL "echo a; echo b"))
        (ExecEnv.parseSplit ⟨strL "x", [], some [(0, 6), (8, 14)], none,
          ⟨[], [], none, false, []⟩, fun _ => none, 0⟩)))
      (strL "ERROR: Cannot execute multiple commands at once.") = true :=
  c7_multi_command_rejected ⟨some .completed, [], strL "/w"⟩ (strL "echo a; echo b")
    false none
    ⟨strL "x", [], some [(0, 6), (8, 14)], none, ⟨[], [], none, false, []⟩,
      fun _ => none, 0⟩
    (by decide) (by decide) (by decide)

/-- The session state carried by an execute outcome (none for a raised
error). -/
def outcomeState : ExecOutcome → Option SessionState
  | .ret _ st _ => some st
  | .pollCmd _ st _ => some st
  | .fatal _ => none

/-- The synchronous prefix of `execute` never changes `self._cwd`. -/
theorem execute_pre_cwd (ini : Bool) (st : SessionState) (a : BAction) (env : ExecEnv)
    (st' : SessionState) (h : outcomeState (execute_pre ini st a env) = some st') :
    st'.cwd = st.cwd := by
  rcases a with _ | ⟨c0, isInp, bl, tm⟩ | ty
  · simp only [execute_pre] at h
    split at h
    · simp [outcomeState] at h
    · simp [outcomeState] at h
      subst h
      rfl
  · simp only [execute_pre] at h
    split at h
    · simp [outcomeState] at h
    · split at h
      · rw [handle_empty_command_pre] at h
        split at h <;> (simp [outcomeState] at h; subst h; rfl)
      · split at h
        · rw [handle_input_command_pre] at h
          split at h <;> (simp [outcomeState] at h; subst h; rfl)
        · simp only [handle_normal_command_pre] at h
          split at h
          · simp [outcomeState] at h
            subst h
            rfl
          · split at h
            · simp [outcomeState] at h
              subst h
              rfl
            · simp [outcomeState] at h
              subst h
              rfl
  · simp only [execute_pre] at h
    split at h
    · simp [outcomeState] at h
    · simp [outcomeState] at h
      subst h
      rfl

/-- The session-mutating operations of the engine: the three poll-loop
handlers, the interrupted-command handler, and one `execute` dispatch (whose
state changes before polling are exactly these). -/
inductive SessionOp where
  | completedCmd (command paneContent : Str) (ms : List PS1Match)
  | nochangeCmd (command paneContent : Str) (ms : List PS1Match) (nct : Nat)
  | hardCmd (command paneContent : Str) (ms : List PS1Match) (t : Nat)
  | interruptedCmd (command paneContent : Str) (ms : List PS1Match)
  | execOp (initializedAttr : Bool) (a : BAction) (env : ExecEnv)

/-- The state after one operation (`none` when an assertion or fatal error is
raised instead of returning). -/
def applyOp (st : SessionState) : SessionOp → Option SessionState
  | .completedCmd c p ms => (handle_completed_command st c p ms).map (fun r => r.2.1)
  | .nochangeCmd c p ms n => some (handle_nochange_timeout_command st c p ms n).2.1
  | .hardCmd c p ms t => some (handle_hard_timeout_command st c p ms t).2.1
  | .interruptedCmd c p ms => some (handle_interrupted_command st c p ms).2
  | .execOp ini a env => outcomeState (execute_pre ini st a env)

/-- C4: across every session operation, `cwd` changes only in the
completed-command handler, and there only to a parsed `working_dir` that is
non-empty and differs from the current `cwd`; the timeout, interrupted, input,
empty, Stop and error paths leave `cwd` unchanged. -/
theorem c4_cwd_only_updated_on_completion (st : SessionState) (op : SessionOp)
    (st' : SessionState) (h : applyOp st op = some st') :
    st'.cwd = st.cwd ∨
    ∃ c p ms m, op = .completedCmd c p ms ∧ ms.getLast? = some m ∧
      m.meta.working_dir ≠ [] ∧ m.meta.working_dir ≠ st.cwd ∧
      st'.cwd = m.meta.working_dir := by
  match op with
  | .completedCmd c p ms =>
      rw [applyOp, handle_completed_command] at h
      cases hg : ms.getLast? with
      | none => rw [hg] at h; simp at h
      | some lastM =>
          rw [hg] at h
          simp only [Option.map_some', Option.some.injEq] at h
          by_cases hcwd : lastM.meta.working_dir ≠ st.cwd ∧ lastM.meta.working_dir ≠ []
          · right
            refine ⟨c, p, ms, lastM, rfl, hg, hcwd.2, hcwd.1, ?_⟩
            rw [← h]
            simp [hcwd]
          · left
            rw [← h]
            simp [hcwd]
  | .nochangeCmd c p ms n =>
      left
      rw [applyOp] at h
      injection h with h
      rw [← h]
      rfl
  | .hardCmd c p ms t =>
      left
      rw [applyOp] at h
      injection h with h
      rw [← h]
      rfl
  | .interruptedCmd c p ms =>
      left
      rw [applyOp] at h
      injection h with h
      rw [← h]
      rfl
  | .execOp ini a env =>
      left
      exact execute_pre_cwd ini st a env st' h

/-- Witness for C4 at a concrete no-change-timeout step. -/
theorem c4_cwd_only_updated_on_completion_witness :
    (⟨some .noChangeTimeout, strL "abc", strL "/w"⟩ : SessionState).cwd
      = (⟨none, [], strL "/w"⟩ : SessionState).cwd :=
  (c4_cwd_only_updated_on_completion ⟨none, [], strL "/w"⟩
      (.nochangeCmd [] (strL "abc") [] 30)
      ⟨some .noChangeTimeout, strL "abc", strL "/w"⟩ (by decide)).resolve_right
    (by rintro ⟨c, p, ms, m, heq, -, -, -, -⟩; exact SessionOp.noConfusion heq)

/-- One iteration's view of the polling loop: the capture time, the captured
pane text and its PS1 matches. -/
structure PollSample where
  time : Int
  pane : Str
  pmatches : List PS1Match
deriving DecidableEq

/-- Which handler the polling loop exits through, with the sample it exited on
(for a no-change timeout also the `last_change_time` it compared against). -/
inductive PollOutcome where
  | completed (s : PollSample)
  | noChangeTimeout (s : PollSample) (lastChange : Int)
  | hardTimeout (s : PollSample)
deriving DecidableEq

/-- Embeds the condition `action.timeout and time.time() - start_time >=
action.timeout` (bash.py 904): a timeout of `None` — and, by Python
truthiness, of 0 — never fires. -/
def hardTimeoutHit (timeout : Option Nat) (startTime now : Int) : Bool :=
  match timeout with
  | some t => decide (t ≠ 0) && decide (now - startTime ≥ (t : Int))
  | none => false

/-- Embeds `BashSession._poll_for_command_completion` (bash.py 841-914).  The
sample list models the successive iterations of the while loop (one capture
and clock reading per iteration); exhausting it models `should_continue()`
turning false, which raises instead of returning (`none`). -/
def poll_for_command_completion (blocking : Bool) (timeout : Option Nat) (nct : Nat)
    (startTime : Int) : Int → Str → List PollSample → Option PollOutcome
  | _, _, [] => none
  | lastChange, lastPane, s :: rest =>
      let upd := if s.pane ≠ lastPane then (s.pane, s.time) else (lastPane, lastChange)
      if endswithL (rstrip s.pane) (rstrip CMD_OUTPUT_PS1_END) then
        some (.completed s)
      else if blocking = false ∧ s.time - upd.2 ≥ (nct : Int) then
        some (.noChangeTimeout s upd.2)
      else if hardTimeoutHit timeout startTime s.time then
        some (.hardTimeout s)
      else poll_for_command_completion blocking timeout nct startTime upd.2 upd.1 rest

/-- C9: the polling loop exits through the no-change-timeout handler only for
a non-blocking action, and only when the pane output has been unchanged for
at least `no_change_timeout_seconds`; a blocking action can never produce a
NO_CHANGE_TIMEOUT observation. -/
theorem c9_no_change_timeout_only_nonblocking (blocking : Bool) (timeout : Option Nat)
    (nct : Nat) (startTime : Int) :
    ∀ (samples : List PollSample) (lastChange : Int) (lastPane : Str)
      (s : PollSample) (lc : Int),
      poll_for_command_completion blocking timeout nct startTime lastChange lastPane
          samples = some (.noChangeTimeout s lc) →
      blocking = false ∧ s.time - lc ≥ (nct : Int)
  | [], lc0, lp0, s, lc => by
      intro h
      rw [poll_for_command_completion] at h
      simp at h
  | smp :: rest, lc0, lp0, s, lc => by
      intro h
      simp only [poll_for_command_completion] at h
      generalize hupd : (if smp.pane ≠ lp0 then (smp.pane, smp.time)
        else (lp0, lc0)) = upd at h
      split at h
      · simp at h
      · split at h
        · next hc =>
            simp only [Option.some.injEq, PollOutcome.noChangeTimeout.injEq] at h
            obtain ⟨rfl, rfl⟩ := h
            exact hc
        · split at h
          · simp at h
          · exact c9_no_change_timeout_only_nonblocking blocking timeout nct startTime
              rest upd.2 upd.1 s lc h

/-- Witness for C9 at a concrete unchanged pane after 31 seconds. -/
theorem c9_no_change_timeout_only_nonblocking_witness :
    false = false ∧ (⟨31, strL "x", []⟩ : PollSample).time - 0 ≥ ((30 : Nat) : Int) :=
  c9_no_change_timeout_only_nonblocking false none 30 0 [⟨31, strL "x", []⟩] 0
    (strL "x") ⟨31, strL "x", []⟩ 0 (by decide)

/-- The psutil-free error raised by reading an attribute that was never
assigned. -/
inductive PyErr where
  | attributeError
deriving DecidableEq

/-- Attribute state of a `BashSession` object over its lifecycle: `__init__`
(bash.py 174-185) sets `_initialized = False` but assigns neither `_closed`
nor `session`; both are first assigned inside `initialize`
(bash.py 188-266).  `none` models an unassigned attribute. -/
structure PySession where
  initializedAttr : Bool
  closedAttr : Option Bool
  sessionAttr : Bool
deriving DecidableEq

/-- Embeds `BashSession.__init__`: the object as constructed. -/
def mkBashSession : PySession :=
  { initializedAttr := false, closedAttr := none, sessionAttr := false }

/-- Embeds the attribute assignments of `initialize` (bash.py 188, 205, 261,
266). -/
def initSession (s : PySession) : PySession :=
  { s with initializedAttr := true, closedAttr := some false, sessionAttr := true }

/-- Embeds `BashSession.close` (bash.py 315-321), which `__del__`
(bash.py 268-270) calls unconditionally: it first reads `self._closed`, which
raises AttributeError on an object on which `initialize` never ran; otherwise
it returns at once when already closed, and else kills processes, kills the
tmux session (both modelled separately) and sets `_closed = True`. -/
def closeSession (s : PySession) : Except PyErr PySession :=
  match s.closedAttr with
  | none => .error .attributeError
  | some true => .ok s
  | some false =>
      if s.sessionAttr then .ok { s with closedAttr := some true }
      else .error .attributeError

/-- C5 evaluation: on a constructed-but-never-initialized session, `close()`
raises AttributeError (so it is not safe from `__del__` there), while after
`initialize` it closes and a second call is a no-op on the same state. -/
theorem c5_close_lifecycle_eval :
    closeSession mkBashSession = .error .attributeError ∧
    closeSession (initSession mkBashSession)
      = .ok { initSession mkBashSession with closedAttr := some true } ∧
    closeSession { initSession mkBashSession with closedAttr := some true }
      = .ok { initSession mkBashSession with closedAttr := some true } :=
  ⟨rfl, rfl, rfl⟩
